import Mathlib

/-!
Verification of the resilient dispatch and transfer-scheduling layer of the
web-browser-downloader repository.

The development shallowly embeds three source modules:
* the `ErrorHandler` class (error classification and retry coordination),
* the `ProxyService` part of `UIController.js` (endpoint selection,
  circuit breaker, rate limiting, `proxyGet` endpoint rotation),
* the scheduling core of `DownloadManager.js` (bounded-concurrency queue,
  retry re-entry, cancellation, task registry).

Machine integers are modelled as `Nat` (all counters in the source are small
non-negative integers and timestamps are `Date.now()` milliseconds).
Wall-clock-only record fields of the source (`startTime`, `lastUpdate`,
`completedTime`, `duration`) are omitted: no verified property mentions them
and they influence no control flow in the embedded code paths.
JavaScript `Map`s are modelled as association lists with the lookup /
replace / delete operations below.
-/

/-! ## String containment (JS `String.prototype.includes`) -/

/-- Prefix test: `listHasPfx s p` holds when `p` is a prefix of `s` (character lists). -/
def listHasPfx : List Char → List Char → Bool
  | _, [] => true
  | [], _ :: _ => false
  | a :: as, b :: bs => a == b && listHasPfx as bs

/-- Substring test: `listHasSub s p`: `p` occurs as a contiguous sublist of `s`. -/
def listHasSub : List Char → List Char → Bool
  | [], p => p.isEmpty
  | s@(_ :: rest), p => listHasPfx s p || listHasSub rest p

/-- JavaScript `s.includes(p)`: substring containment, case sensitive. -/
def strIncludes (s p : String) : Bool :=
  listHasSub s.data p.data

/-! ## Association-list maps (JS `Map`) -/

/-- JS `Map.get`, returning `none` for a missing key. -/
def mget {α : Type} (m : List (String × α)) (k : String) : Option α :=
  match m with
  | [] => none
  | p :: rest => if p.1 = k then some p.2 else mget rest k

/-- JS `Map.set`: bind `k` to `v`, removing any previous binding. -/
def mset {α : Type} (m : List (String × α)) (k : String) (v : α) :
    List (String × α) :=
  (k, v) :: m.filter (fun p => p.1 ≠ k)

/-- JS `Map.delete`. -/
def mdel {α : Type} (m : List (String × α)) (k : String) : List (String × α) :=
  m.filter (fun p => p.1 ≠ k)

/-- In-place mutation of the object stored at key `k` (JS objects are held by
reference, so mutating the object is updating the map entry). -/
def updTask {α : Type} (m : List (String × α)) (k : String) (f : α → α) :
    List (String × α) :=
  m.map (fun p => if p.1 = k then (p.1, f p.2) else p)

theorem mget_mdel_self {α : Type} (m : List (String × α)) (k : String) :
    mget (mdel m k) k = none := by
  induction m with
  | nil => rfl
  | cons p rest ih =>
    by_cases hp : p.1 = k
    · simpa [mdel, List.filter_cons, hp] using ih
    · simpa [mdel, List.filter_cons, hp, mget] using ih

theorem mget_mdel_ne {α : Type} (m : List (String × α)) (k k' : String)
    (h : k' ≠ k) : mget (mdel m k) k' = mget m k' := by
  induction m with
  | nil => rfl
  | cons p rest ih =>
    by_cases hp : p.1 = k
    · have hk : k ≠ k' := Ne.symm h
      simpa [mdel, List.filter_cons, hp, mget, hk] using ih
    · by_cases hp' : p.1 = k'
      · simp [mdel, List.filter_cons, hp, mget, hp', h]
      · simpa [mdel, List.filter_cons, hp, mget, hp'] using ih

theorem mget_mset_self {α : Type} (m : List (String × α)) (k : String) (v : α) :
    mget (mset m k v) k = some v := by
  simp [mget, mset]

theorem mget_mset_ne {α : Type} (m : List (String × α)) (k k' : String) (v : α)
    (h : k ≠ k') : mget (mset m k v) k' = mget m k' := by
  have : mget (mset m k v) k' = mget (mdel m k) k' := by
    simp [mget, mset, mdel, h]
  rw [this, mget_mdel_ne m k k' (fun hh => h hh.symm)]

theorem mget_updTask {α : Type} (m : List (String × α)) (k k' : String)
    (f : α → α) :
    mget (updTask m k f) k' =
      if k' = k then (mget m k').map f else mget m k' := by
  induction m with
  | nil => by_cases hk : k' = k <;> simp [updTask, mget, hk]
  | cons p rest ih =>
    by_cases hp : p.1 = k
    · by_cases hk : k' = k
      · have hpk : p.1 = k' := by rw [hp, hk]
        simp [updTask, mget, hp, hk, hpk, ih]
      · have hpk : p.1 ≠ k' := by rw [hp]; exact fun hh => hk hh.symm
        have hk' : ¬ k = k' := fun hh => hk hh.symm
        simpa [updTask, mget, hp, hk, hpk, hk'] using ih
    · by_cases hp' : p.1 = k'
      · have hk : ¬ k' = k := by rw [← hp']; exact hp
        simp [updTask, mget, hp, hp', hk]
      · simpa [updTask, mget, hp, hp'] using ih

/-! ## ErrorHandler (src/unnamed/part_003)

`retryAttempts` is the `Map` tracking per-operation attempt counts,
`maxRetries = 3` and `retryDelay = 1000` are the constructor constants.
The `wait` delays have no state effect and are not modelled.  A thrown
JavaScript `Error` is an `ErrObj` with its `name` and `message` fields. -/

namespace EH

/-- A JavaScript error value as inspected by `analyzeError`. -/
structure ErrObj where
  name : String
  message : String
deriving DecidableEq, Repr

/-- The `{type, isRetryable, severity}` record built by `analyzeError`
(the `originalError` back-reference is dropped: nothing reads it). -/
structure ErrorInfo where
  etype : String
  isRetryable : Bool
  severity : String
deriving DecidableEq, Repr

/-- Source `ErrorHandler.analyzeError`: message/name inspection cascade. -/
def analyzeError (e : ErrObj) : ErrorInfo :=
  if e.name == "TypeError" && strIncludes e.message "fetch" then
    ⟨"network", true, "high"⟩
  else if strIncludes e.message "timeout" then
    ⟨"timeout", true, "medium"⟩
  else if strIncludes e.message "CORS" then
    ⟨"cors", false, "high"⟩
  else if strIncludes e.message "SSL" || strIncludes e.message "certificate" then
    ⟨"ssl", false, "high"⟩
  else if strIncludes e.message "404" then
    ⟨"notfound", false, "low"⟩
  else if strIncludes e.message "403" || strIncludes e.message "401" then
    ⟨"auth", false, "medium"⟩
  else if strIncludes e.message "500" || strIncludes e.message "502" ||
      strIncludes e.message "503" then
    ⟨"server", true, "high"⟩
  else
    ⟨"unknown", false, "medium"⟩

/-- Source `ErrorHandler.generateUserFriendlyMessage`: the `messages` lookup with
`messages.unknown` as the fallback. -/
def generateUserFriendlyMessage (info : ErrorInfo) : String :=
  if info.etype == "network" then "网络连接失败，请检查网络设置后重试"
  else if info.etype == "timeout" then "请求超时，请稍后重试"
  else if info.etype == "cors" then "跨域请求被阻止，请使用代理服务"
  else if info.etype == "ssl" then "SSL证书验证失败，请确认网站安全性"
  else if info.etype == "notfound" then "请求的资源不存在"
  else if info.etype == "auth" then "访问被拒绝，请检查权限设置"
  else if info.etype == "server" then "服务器错误，请稍后重试"
  else "发生未知错误，请稍后重试"

/-- Constructor constant `this.maxRetries = 3`. -/
def maxRetries : Nat := 3

/-- Mutable `ErrorHandler` state: the `retryAttempts` map and the
`navigator.onLine`-driven `isOnline` flag. -/
structure EHState where
  retryAttempts : List (String × Nat)
  isOnline : Bool
deriving DecidableEq, Repr

/-- Reading `this.retryAttempts.get(operation) || 0`. -/
def getAttempts (st : EHState) (op : String) : Nat :=
  (mget st.retryAttempts op).getD 0

/-- Source `ErrorHandler.canRetry`. -/
def canRetry (st : EHState) (op : String) (info : ErrorInfo) : Bool :=
  info.isRetryable && decide (getAttempts st op < maxRetries)

/-- One work unit: invocation index `k` ↦ resolved value or rejection.
The index lets a single function describe a sequence of outcomes. -/
def Work (α : Type) : Type := Nat → Except ErrObj α

/-- Source `ErrorHandler.retryOperation`, fuel-indexed.  The source recursion
terminates because `canRetry` demands `attempts < maxRetries` and every level
increments the stored count; callers pass fuel `maxRetries + 1`, which the
lemmas below show is never exhausted.  Result: `(outcome, state, number of
`retryFunction` invocations performed)`. -/
def retryOperationFuel {α : Type} :
    Nat → EHState → String → Work α → Nat → Except ErrObj α × EHState × Nat
  | 0, st, _, _, k => (Except.error ⟨"FuelExhausted", ""⟩, st, k)
  | fuel + 1, st, op, work, k =>
    let a := getAttempts st op
    let st1 : EHState := { st with retryAttempts := mset st.retryAttempts op (a + 1) }
    match work k with
    | Except.ok v =>
      (Except.ok v, { st1 with retryAttempts := mdel st1.retryAttempts op }, k + 1)
    | Except.error e =>
      if canRetry st1 op (analyzeError e) then
        retryOperationFuel fuel st1 op work (k + 1)
      else
        (Except.error e, st1, k + 1)

/-- Source `ErrorHandler.retryOperation` as called with a fresh recursion. -/
def retryOperation {α : Type} (st : EHState) (op : String) (work : Work α) :
    Except ErrObj α × EHState × Nat :=
  retryOperationFuel (maxRetries + 1) st op work 0

/-- Source `ErrorHandler.handleNetworkError(error, operation, retryFunction)`. -/
def handleNetworkError {α : Type} (st : EHState) (err : ErrObj) (op : String)
    (work : Work α) : Except ErrObj α × EHState × Nat :=
  let info := analyzeError err
  if st.isOnline = false then
    (Except.error ⟨"Error", "网络连接已断开，请检查网络设置"⟩, st, 0)
  else if canRetry st op info then
    retryOperation st op work
  else
    (Except.error ⟨"Error", generateUserFriendlyMessage info⟩, st, 0)

/-- The error message `makeProxyRequest` builds from a non-ok response:
`HTTP ${response.status}: ${response.statusText}`. -/
def httpErrorMessage (status : Nat) (statusText : String) : String :=
  "HTTP " ++ toString status ++ ": " ++ statusText

/-- Modelled from the spec: "upstream failure (5xx-class)" — an HTTP status
in the 500–599 range.  (The spec's table row for `server`; the source checks
only for the substrings 500/502/503, which is what the claim C8 compares
against.) -/
def is5xxClass (status : Nat) : Bool :=
  500 ≤ status && status ≤ 599

end EH

/-! ## ProxyService (src/js/modules/UIController.js, lines ~900–1300)

The per-endpoint record, the circuit-breaker maps, `selectBestProxy`, and the
`proxyGet` rotation loop.  The network outcome of one `makeProxyRequest`
attempt (fetch + response validation) is abstracted as an oracle indexed by
the number of requests issued so far; `makeProxyRequest`'s own catch block
calls `recordFailure` before rethrowing, so a failed attempt records the
failure twice (once there, once in `proxyGet`'s catch), which the loop
embedding reproduces. -/

namespace Proxy

/-- One entry of `this.proxyServices` (the `url`/`type` template fields play
no role in the verified claims and are omitted from the record). -/
structure Service where
  name : String
  timeout : Nat
  rateLimit : Nat
  lastUsed : Nat
  requestCount : Nat
deriving DecidableEq, Repr

/-- A circuit-breaker entry `{isOpen, openedAt, timeout}`. -/
structure Breaker where
  isOpen : Bool
  openedAt : Nat
  timeout : Nat
deriving DecidableEq, Repr

/-- Mutable `ProxyService` state: the endpoint array and the two maps. -/
structure ProxyState where
  services : List Service
  failureCount : List (String × Nat)
  circuitBreaker : List (String × Breaker)
deriving DecidableEq, Repr

/-- Reading `this.failureCount.get(name) || 0`. -/
def getFailures (st : ProxyState) (name : String) : Nat :=
  (mget st.failureCount name).getD 0

/-- Source `ProxyService.recordFailure(service)` at time `now`: increments the
count and, when the pre-increment count is already `≥ 3`, opens the breaker
with a 5-minute (300000 ms) cooldown. -/
def recordFailure (st : ProxyState) (s : Service) (now : Nat) : ProxyState :=
  let failures := getFailures st s.name
  let st1 : ProxyState :=
    { st with failureCount := mset st.failureCount s.name (failures + 1) }
  if failures ≥ 3 then
    let b : Breaker := ⟨true, now, 5 * 60 * 1000⟩
    { st1 with circuitBreaker := mset st1.circuitBreaker s.name b }
  else st1

/-- Source `ProxyService.recordSuccess(service)`. -/
def recordSuccess (st : ProxyState) (s : Service) : ProxyState :=
  { st with failureCount := mset st.failureCount s.name 0,
            circuitBreaker := mdel st.circuitBreaker s.name }

/-- Source `ProxyService.isServiceAvailable(service)` at time `now`.  Queried
lazily; deletes an expired breaker (a state effect, hence the pair). -/
def isServiceAvailable (st : ProxyState) (s : Service) (now : Nat) :
    Bool × ProxyState :=
  match mget st.circuitBreaker s.name with
  | none => (true, st)
  | some b =>
    if now - b.openedAt > b.timeout then
      (true, { st with circuitBreaker := mdel st.circuitBreaker s.name })
    else (false, st)

/-- Source `ProxyService.checkRateLimit(service)`. -/
def checkRateLimit (s : Service) : Bool :=
  s.requestCount < s.rateLimit

/-- The `filter` pass of `selectBestProxy`, threading the breaker-deletion
side effects of `isServiceAvailable` left to right. -/
def selectAvailable (now : Nat) : List Service → ProxyState →
    List Service × ProxyState
  | [], st => ([], st)
  | s :: rest, st =>
    let av := isServiceAvailable st s now
    let tail := selectAvailable now rest av.2
    if av.1 && checkRateLimit s then (s :: tail.1, tail.2) else tail

/-- The `reduce` pass of `selectBestProxy`: least-recently-used. -/
def lruPick (a : Service) (l : List Service) : Service :=
  l.foldl (fun best cur => if cur.lastUsed < best.lastUsed then cur else best) a

/-- Source `ProxyService.selectBestProxy()` at time `now`. -/
def selectBestProxy (st : ProxyState) (now : Nat) :
    Option Service × ProxyState :=
  let av := selectAvailable now st.services st
  match av.1 with
  | [] => (none, av.2)
  | a :: rest => (some (lruPick a rest), av.2)

/-- Outcome of issuing one proxied request through an endpoint (the
`makeProxyRequest` fetch + validation, abstracted): a response handle or the
message of the thrown error. -/
inductive RequestOutcome
  | ok (resp : Nat)
  | err (msg : String)
deriving DecidableEq, Repr

/-- Returns `true` on the rejection branch. -/
def RequestOutcome.isErr : RequestOutcome → Bool
  | .ok _ => false
  | .err _ => true

/-- Result of `proxyGet`: the returned response, one of the two terminal
errors of the loop, or the JavaScript crash that would occur reading
`lastError.message` with `lastError` still `undefined`. -/
inductive ProxyResult
  | ok (resp : Nat)
  | noService
  | allFailed (lastMsg : String)
  | jsUndefined
deriving DecidableEq, Repr

/-- Mutation of the selected endpoint object inside `this.proxyServices`
(`service.lastUsed = Date.now(); service.requestCount++`), addressed by
name identity. -/
def updateService (st : ProxyState) (name : String) (f : Service → Service) :
    ProxyState :=
  { st with services := st.services.map (fun s => if s.name = name then f s else s) }

/-- The `while (attempts < maxAttempts)` loop of `proxyGet`.  `fuel` is
`maxAttempts - attempts` (the source counts failures only; a success
returns), `issued` the number of requests dispatched so far, `lastErr` the
source's `lastError`.  On failure the double `recordFailure` is the
composition of `makeProxyRequest`'s catch and `proxyGet`'s catch. -/
def proxyGetLoop (oracle : Nat → String → RequestOutcome) (now : Nat) :
    Nat → ProxyState → Nat → Option String → ProxyResult × ProxyState × Nat
  | 0, st, issued, lastErr =>
    (match lastErr with
     | some m => ProxyResult.allFailed m
     | none => ProxyResult.jsUndefined, st, issued)
  | fuel + 1, st, issued, _lastErr =>
    let sel := selectBestProxy st now
    match sel.1 with
    | none => (ProxyResult.noService, sel.2, issued)
    | some service =>
      match oracle issued service.name with
      | RequestOutcome.ok r =>
        let st2 := updateService sel.2 service.name
          (fun s => { s with lastUsed := now, requestCount := s.requestCount + 1 })
        (ProxyResult.ok r, recordSuccess st2 service, issued + 1)
      | RequestOutcome.err msg =>
        proxyGetLoop oracle now fuel
          (recordFailure (recordFailure sel.2 service now) service now)
          (issued + 1) (some msg)

/-- Source `ProxyService.proxyGet(url)` after its initialization/HTTPS preamble:
`maxAttempts = this.proxyServices.length`, `attempts = 0`,
`lastError = undefined`. -/
def proxyGet (st : ProxyState) (oracle : Nat → String → RequestOutcome)
    (now : Nat) : ProxyResult × ProxyState × Nat :=
  proxyGetLoop oracle now st.services.length st 0 none

end Proxy

/-! ## DownloadManager scheduler (src/js/modules/DownloadManager.js)

The bounded-concurrency transfer scheduler, embedded as a deterministic
event machine.  Each event is one synchronous block of the source between
`await` suspension points:

* `submit` — `downloadMediaFile` (identical shape for `downloadPDFFile`):
  create the task, register it, then `queueDownload`;
* `settleOk` / `settleErr` — the continuation of `executeDownload` after the
  awaited transfer resolves / rejects (status update, retry scheduling, and
  the `finally` block: decrement `activeDownloads`, `processQueue`);
* `timerFire` — the `setTimeout` retry re-entry calling `executeDownload`
  again;
* `cancel` — `cancelDownload`;
* `progressUpd` — the in-flight `progressTracker` writing `task.progress`.

Events whose source precondition does not hold (settling a transfer that is
not in flight, firing a timer that is not pending) are no-ops.  `running`
and `timers` are the bookkeeping for pending continuations and pending
`setTimeout` callbacks; the remaining fields mirror the class fields. -/

namespace DM

/-- Task status strings of the source state machine. -/
inductive Status
  | pending
  | queued
  | downloading
  | retrying
  | completed
  | failed
  | cancelled
deriving DecidableEq, Repr

/-- A download task as built by `downloadMediaFile` (wall-clock fields and
the constant `type`/`options` fields omitted). -/
structure Task where
  id : String
  url : String
  filename : String
  status : Status
  progress : Nat
  retryCount : Nat
  error : Option String
deriving DecidableEq, Repr

/-- Constructor constant `this.maxConcurrentDownloads = 3`. -/
def maxConcurrentDownloads : Nat := 3

/-- Constructor constant `this.retryAttempts = 3` (per-task retry budget). -/
def retryBudget : Nat := 3

/-- Mutable `DownloadManager` state. -/
structure DMState where
  downloads : List (String × Task)
  activeDownloads : Nat
  downloadQueue : List String
  running : List String
  timers : List String
deriving DecidableEq, Repr

/-- The empty manager right after `initialize()`. -/
def dmInit : DMState := ⟨[], 0, [], [], []⟩

/-- Source `DownloadManager.updateDownloadStatus(id, status, error)`: mutates the
task object if present; the error field is written only when non-null. -/
def updateDownloadStatus (m : List (String × Task)) (k : String) (s : Status)
    (err : Option String) : List (String × Task) :=
  updTask m k (fun t =>
    match err with
    | some e => { t with status := s, error := some e }
    | none => { t with status := s })

/-- The synchronous prefix of `executeDownload(task)`:
`this.activeDownloads++; updateDownloadStatus(id, 'downloading')`, and the
transfer goes in flight. -/
def startExec (st : DMState) (id : String) : DMState :=
  { st with
      activeDownloads := st.activeDownloads + 1,
      downloads := updateDownloadStatus st.downloads id Status.downloading none,
      running := id :: st.running }

/-- Source `DownloadManager.processQueue()`. -/
def processQueue (st : DMState) : DMState :=
  match st.downloadQueue with
  | [] => st
  | id :: rest =>
    if st.activeDownloads < maxConcurrentDownloads then
      startExec { st with downloadQueue := rest } id
    else st

/-- Scheduler events (one synchronous block of the source each). -/
inductive Ev
  | submit (id url filename : String)
  | settleOk (id : String)
  | settleErr (id : String) (msg : String)
  | timerFire (id : String)
  | cancel (id : String)
  | progressUpd (id : String) (p : Nat)
deriving DecidableEq, Repr

/-- One step of the scheduler. -/
def exec (st : DMState) (ev : Ev) : DMState :=
  match ev with
  | Ev.submit id url filename =>
    -- downloadMediaFile: build the task, downloads.set, queueDownload
    let t : Task := ⟨id, url, filename, Status.pending, 0, 0, none⟩
    let st1 : DMState := { st with downloads := mset st.downloads id t }
    if st1.activeDownloads < maxConcurrentDownloads then
      startExec st1 id
    else
      { st1 with
          downloadQueue := st1.downloadQueue ++ [id],
          downloads := updateDownloadStatus st1.downloads id Status.queued none }
  | Ev.settleOk id =>
    if id ∈ st.running then
      let st1 : DMState := { st with running := st.running.erase id }
      let st2 : DMState :=
        { st1 with downloads := updateDownloadStatus st1.downloads id Status.completed none }
      processQueue { st2 with activeDownloads := st2.activeDownloads - 1 }
    else st
  | Ev.settleErr id msg =>
    if id ∈ st.running then
      let st1 : DMState := { st with running := st.running.erase id }
      match mget st1.downloads id with
      | none => st1   -- unreachable: the closure holds the registered task
      | some t =>
        if t.retryCount < retryBudget then
          -- downloadTask.retryCount++; status 'retrying'; setTimeout re-entry
          let bump := updTask st1.downloads id
            (fun u => { u with retryCount := u.retryCount + 1 })
          let st2 : DMState := { st1 with downloads := bump }
          let st3 : DMState :=
            { st2 with downloads := updateDownloadStatus st2.downloads id Status.retrying none }
          let st4 : DMState := { st3 with timers := id :: st3.timers }
          processQueue { st4 with activeDownloads := st4.activeDownloads - 1 }
        else
          let st2 : DMState :=
            { st1 with downloads := updateDownloadStatus st1.downloads id Status.failed (some msg) }
          processQueue { st2 with activeDownloads := st2.activeDownloads - 1 }
    else st
  | Ev.timerFire id =>
    if id ∈ st.timers then
      startExec { st with timers := st.timers.erase id } id
    else st
  | Ev.cancel id =>
    match mget st.downloads id with
    | none => st
    | some t =>
      if t.status = Status.downloading ∨ t.status = Status.queued then
        { st with
            downloads := updateDownloadStatus st.downloads id Status.cancelled none,
            downloadQueue := st.downloadQueue.erase id }
      else st
  | Ev.progressUpd id p =>
    if id ∈ st.running then
      { st with downloads := updTask st.downloads id (fun u => { u with progress := p }) }
    else st

/-- Run a sequence of scheduler events. -/
def runDM (st : DMState) (evs : List Ev) : DMState :=
  evs.foldl exec st

/-- The projection `getDownloadProgress` returns (wall-clock and `type`
fields omitted, as above). -/
structure ProgressView where
  id : String
  filename : String
  status : Status
  progress : Nat
  retryCount : Nat
  error : Option String
deriving DecidableEq, Repr

/-- Source `DownloadManager.getDownloadProgress(id)`. -/
def getDownloadProgress (st : DMState) (did : String) : Option ProgressView :=
  (mget st.downloads did).map
    (fun t => ⟨t.id, t.filename, t.status, t.progress, t.retryCount, t.error⟩)

end DM

/-! ## Concrete fixtures used by counterexamples and witnesses -/

/-- A one-endpoint configuration (shape of the `AllOrigins` entry, counters
in their initial state). -/
def svA : Proxy.Service := ⟨"A", 10000, 100, 0, 0⟩

/-- Proxy state holding only `svA`, with empty failure/breaker maps. -/
def pstA : Proxy.ProxyState := ⟨[svA], [], []⟩

/-- An oracle whose every request fails with message `boom`. -/
def oracleFail : Nat → String → Proxy.RequestOutcome :=
  fun _ _ => Proxy.RequestOutcome.err "boom"

/-- A fresh online `ErrorHandler` state. -/
def ehOnline : EH.EHState := ⟨[], true⟩

/-! ## Claim theorems -/

/-- Claim C2.  While online, `handleNetworkError` called with a seed error
whose classification is not retryable never invokes the retry function (the
invocation count of the result is 0) and throws the generic user-friendly
message for that classification; the fixed seeds
`Error('Download preparation')` and `Error('Network request preparation')`
used by `executeFileDownload` and `makeProxyRequest` are such errors, so the
wrapped work is unreachable through this path. -/
theorem claim_c2 {α : Type} (st : EH.EHState) (err : EH.ErrObj) (op : String)
    (work : EH.Work α)
    (hOn : st.isOnline = true)
    (hNR : (EH.analyzeError err).isRetryable = false) :
    EH.handleNetworkError st err op work =
      (Except.error ⟨"Error", EH.generateUserFriendlyMessage (EH.analyzeError err)⟩,
        st, 0) ∧
    (EH.analyzeError ⟨"Error", "Download preparation"⟩).isRetryable = false ∧
    (EH.analyzeError ⟨"Error", "Network request preparation"⟩).isRetryable = false := by
  refine ⟨?_, by decide, by decide⟩
  unfold EH.handleNetworkError
  simp [hOn, EH.canRetry, hNR]

/-- Witness for C2 at a concrete input: the actual seed used by
`executeFileDownload`, online state. -/
theorem claim_c2_witness :
    ehOnline.isOnline = true ∧
    (EH.analyzeError ⟨"Error", "Download preparation"⟩).isRetryable = false ∧
    EH.handleNetworkError ehOnline ⟨"Error", "Download preparation"⟩ "download-x"
        (fun _ => Except.ok (0 : Nat)) =
      (Except.error ⟨"Error", EH.generateUserFriendlyMessage
          (EH.analyzeError ⟨"Error", "Download preparation"⟩)⟩, ehOnline, 0) :=
  ⟨rfl, by decide,
    (claim_c2 ehOnline ⟨"Error", "Download preparation"⟩ "download-x"
      (fun _ => Except.ok (0 : Nat)) rfl (by decide)).1⟩

/-- Claim C8 counterexample.  A 5xx-class upstream failure — status 504,
with exactly the message `makeProxyRequest` builds for a non-ok response —
is classified `unknown`/non-retryable/`medium` by `analyzeError`, not
`server`/retryable/`high` as the claim's table row demands. -/
theorem claim_c8_counterexample :
    EH.is5xxClass 504 = true ∧
    EH.analyzeError ⟨"Error", EH.httpErrorMessage 504 "Gateway Timeout"⟩ =
      ⟨"unknown", false, "medium"⟩ ∧
    EH.analyzeError ⟨"Error", EH.httpErrorMessage 504 "Gateway Timeout"⟩ ≠
      ⟨"server", true, "high"⟩ := by
  decide

/-- Claim C8 as amended.  `analyzeError` matches the spec's table on the
conditions the source actually checks — a `TypeError` mentioning `fetch`,
and messages mentioning `timeout`, `CORS`, `SSL`/`certificate`, `404`,
`403`/`401`, `500`/`502`/`503` respectively — with everything else falling
to `unknown`; the `server` row therefore covers only the 500/502/503
statuses, and other 5xx-class statuses such as 504 are classified
`unknown`/non-retryable.  Each row is checked on the error the code itself
produces for that condition. -/
theorem claim_c8_amended :
    EH.analyzeError ⟨"TypeError", "Failed to fetch"⟩ = ⟨"network", true, "high"⟩ ∧
    EH.analyzeError ⟨"Error", "network timeout"⟩ = ⟨"timeout", true, "medium"⟩ ∧
    EH.analyzeError ⟨"Error", "blocked by CORS policy"⟩ = ⟨"cors", false, "high"⟩ ∧
    EH.analyzeError ⟨"Error", "SSL handshake failed"⟩ = ⟨"ssl", false, "high"⟩ ∧
    EH.analyzeError ⟨"Error", "invalid certificate"⟩ = ⟨"ssl", false, "high"⟩ ∧
    EH.analyzeError ⟨"Error", EH.httpErrorMessage 404 "Not Found"⟩ =
      ⟨"notfound", false, "low"⟩ ∧
    EH.analyzeError ⟨"Error", EH.httpErrorMessage 403 "Forbidden"⟩ =
      ⟨"auth", false, "medium"⟩ ∧
    EH.analyzeError ⟨"Error", EH.httpErrorMessage 401 "Unauthorized"⟩ =
      ⟨"auth", false, "medium"⟩ ∧
    EH.analyzeError ⟨"Error", EH.httpErrorMessage 500 "Internal Server Error"⟩ =
      ⟨"server", true, "high"⟩ ∧
    EH.analyzeError ⟨"Error", EH.httpErrorMessage 502 "Bad Gateway"⟩ =
      ⟨"server", true, "high"⟩ ∧
    EH.analyzeError ⟨"Error", EH.httpErrorMessage 503 "Service Unavailable"⟩ =
      ⟨"server", true, "high"⟩ ∧
    (EH.is5xxClass 504 = true ∧
      EH.analyzeError ⟨"Error", EH.httpErrorMessage 504 "Gateway Timeout"⟩ =
        ⟨"unknown", false, "medium"⟩) ∧
    EH.analyzeError ⟨"Error", "something odd happened"⟩ =
      ⟨"unknown", false, "medium"⟩ := by
  decide

/-- A fixed retryable error sequence for witnesses. -/
def fixErrs : Nat → EH.ErrObj := fun _ => ⟨"Error", "connection timeout"⟩

/-- Claim C4 counterexample.  With the default `maxRetries = 3`, an online
handler, and an operation that always fails with a retryable (timeout)
error, the work function is invoked exactly 3 times — not the
`maxRetries + 1 = 4` times the claim states. -/
theorem claim_c4_counterexample :
    (EH.handleNetworkError ehOnline ⟨"Error", "request timeout"⟩ "op"
        (fun _ => (Except.error ⟨"Error", "connection timeout"⟩ :
          Except EH.ErrObj Nat))).2.2 = 3 ∧
    (3 : Nat) ≠ EH.maxRetries + 1 := by
  decide

/-- Claim C4 as amended.  Run with an operation that always fails with a
retryable error (and a retryable seed error, fresh attempt counter, online),
the work function is invoked exactly `maxRetries` times (3 by default) and
the last failure is propagated to the caller. -/
theorem claim_c4_amended {α : Type} (st : EH.EHState) (op : String)
    (seed : EH.ErrObj) (errs : Nat → EH.ErrObj)
    (hOn : st.isOnline = true)
    (hInit : mget st.retryAttempts op = none)
    (hSeed : (EH.analyzeError seed).isRetryable = true)
    (hErrs : ∀ k, (EH.analyzeError (errs k)).isRetryable = true) :
    (EH.handleNetworkError st seed op
        (fun k => (Except.error (errs k) : Except EH.ErrObj α))).2.2 =
      EH.maxRetries ∧
    (EH.handleNetworkError st seed op
        (fun k => (Except.error (errs k) : Except EH.ErrObj α))).1 =
      Except.error (errs (EH.maxRetries - 1)) := by
  have h0 : EH.getAttempts st op = 0 := by simp [EH.getAttempts, hInit]
  unfold EH.handleNetworkError
  rw [if_neg (by simp [hOn])]
  rw [if_pos (by simp [EH.canRetry, hSeed, h0, EH.maxRetries])]
  unfold EH.retryOperation
  show ((EH.retryOperationFuel (EH.maxRetries + 1) st op _ 0).2.2 = EH.maxRetries ∧ _)
  simp only [EH.maxRetries]
  simp [EH.retryOperationFuel, EH.canRetry, EH.getAttempts, mget_mset_self,
    hErrs, EH.maxRetries, h0, hInit]

/-- Witness for C4 (amended) at a concrete input. -/
theorem claim_c4_amended_witness :
    ehOnline.isOnline = true ∧
    mget ehOnline.retryAttempts "op" = none ∧
    (EH.handleNetworkError ehOnline ⟨"Error", "request timeout"⟩ "op"
        (fun k => (Except.error (fixErrs k) : Except EH.ErrObj Nat))).2.2 =
      EH.maxRetries :=
  ⟨rfl, rfl,
    (claim_c4_amended ehOnline "op" ⟨"Error", "request timeout"⟩ fixErrs rfl rfl
      (by decide)
      (fun _ =>
        show (EH.analyzeError ⟨"Error", "connection timeout"⟩).isRetryable = true by
          decide)).1⟩

/-- Claim C9.  Run with an operation that fails with a retryable error
exactly `k < maxRetries` times and then succeeds (retryable seed, fresh
attempt counter, online), the handler returns the success result and the
attempt counter for the operation id has been removed (reads back as
absent). -/
theorem claim_c9 {α : Type} (st : EH.EHState) (op : String) (v : α)
    (seed : EH.ErrObj) (errs : Nat → EH.ErrObj) (k : Nat)
    (hk : k < EH.maxRetries)
    (hOn : st.isOnline = true)
    (hInit : mget st.retryAttempts op = none)
    (hSeed : (EH.analyzeError seed).isRetryable = true)
    (hErrs : ∀ j, (EH.analyzeError (errs j)).isRetryable = true) :
    (EH.handleNetworkError st seed op
        (fun j => if j < k then Except.error (errs j) else Except.ok v)).1 =
      Except.ok v ∧
    mget (EH.handleNetworkError st seed op
        (fun j => if j < k then Except.error (errs j) else Except.ok v)).2.1.retryAttempts
        op = none := by
  have h0 : EH.getAttempts st op = 0 := by simp [EH.getAttempts, hInit]
  unfold EH.handleNetworkError
  rw [if_neg (by simp [hOn])]
  rw [if_pos (by simp [EH.canRetry, hSeed, h0, EH.maxRetries])]
  unfold EH.retryOperation
  have hk3 : k < 3 := by simpa [EH.maxRetries] using hk
  interval_cases k <;>
    simp [EH.retryOperationFuel, EH.canRetry, EH.getAttempts, mget_mset_self,
      mget_mdel_self, hErrs, EH.maxRetries, h0, hInit]

/-- Witness for C9 at a concrete input: two retryable failures, then
success. -/
theorem claim_c9_witness :
    2 < EH.maxRetries ∧
    (EH.handleNetworkError ehOnline ⟨"Error", "request timeout"⟩ "op"
        (fun j => if j < 2 then Except.error (fixErrs j) else Except.ok 42)).1 =
      Except.ok 42 :=
  ⟨by decide,
    (claim_c9 ehOnline "op" 42 ⟨"Error", "request timeout"⟩ fixErrs 2 (by decide)
      rfl rfl (by decide)
      (fun _ =>
        show (EH.analyzeError ⟨"Error", "connection timeout"⟩).isRetryable = true by
          decide)).1⟩

/-! ### Proxy helper lemmas -/

theorem getFailures_recordFailure (st : Proxy.ProxyState) (s : Proxy.Service)
    (now : Nat) :
    Proxy.getFailures (Proxy.recordFailure st s now) s.name =
      Proxy.getFailures st s.name + 1 := by
  unfold Proxy.recordFailure Proxy.getFailures
  dsimp only
  split <;> simp [mget_mset_self]

theorem recordFailure_services (st : Proxy.ProxyState) (s : Proxy.Service)
    (now : Nat) : (Proxy.recordFailure st s now).services = st.services := by
  unfold Proxy.recordFailure
  dsimp only
  split <;> rfl

theorem recordSuccess_services (st : Proxy.ProxyState) (s : Proxy.Service) :
    (Proxy.recordSuccess st s).services = st.services := rfl

theorem isServiceAvailable_services (st : Proxy.ProxyState) (s : Proxy.Service)
    (now : Nat) : ((Proxy.isServiceAvailable st s now).2).services = st.services := by
  unfold Proxy.isServiceAvailable
  cases h : mget st.circuitBreaker s.name with
  | none => rfl
  | some b =>
    by_cases he : now - b.openedAt > b.timeout <;> simp [he]

theorem selectAvailable_services (now : Nat) (l : List Proxy.Service)
    (st : Proxy.ProxyState) :
    ((Proxy.selectAvailable now l st).2).services = st.services := by
  induction l generalizing st with
  | nil => rfl
  | cons s rest ih =>
    unfold Proxy.selectAvailable
    by_cases h : (Proxy.isServiceAvailable st s now).1 && Proxy.checkRateLimit s <;>
      simp [h, ih, isServiceAvailable_services]

theorem selectBestProxy_services (st : Proxy.ProxyState) (now : Nat) :
    ((Proxy.selectBestProxy st now).2).services = st.services := by
  unfold Proxy.selectBestProxy
  cases h : (Proxy.selectAvailable now st.services st).1 with
  | nil => simpa [h] using selectAvailable_services now st.services st
  | cons a rest => simpa [h] using selectAvailable_services now st.services st

/-- The `reduce` of `selectBestProxy` returns one of the filtered
services. -/
theorem lruPick_mem (a : Proxy.Service) (l : List Proxy.Service) :
    Proxy.lruPick a l ∈ a :: l := by
  induction l generalizing a with
  | nil => simp [Proxy.lruPick]
  | cons c rest ih =>
    have step : Proxy.lruPick a (c :: rest) =
        Proxy.lruPick (if c.lastUsed < a.lastUsed then c else a) rest := rfl
    have h := ih (if c.lastUsed < a.lastUsed then c else a)
    by_cases hc : c.lastUsed < a.lastUsed
    · rw [if_pos hc] at h step
      rw [step]
      rcases List.mem_cons.mp h with h1 | h1
      · simp [h1]
      · exact List.mem_cons.mpr (Or.inr (List.mem_cons.mpr (Or.inr h1)))
    · rw [if_neg hc] at h step
      rw [step]
      rcases List.mem_cons.mp h with h1 | h1
      · simp [h1]
      · exact List.mem_cons.mpr (Or.inr (List.mem_cons.mpr (Or.inr h1)))

/-- While an endpoint's breaker entry is open and not yet expired, the
filter of `selectBestProxy` excludes every service with that name, and the
entry survives the lazy deletions performed for other services. -/
theorem selectAvailable_blocked (now : Nat) (ename : String) (b : Proxy.Breaker)
    (hb : ¬ now - b.openedAt > b.timeout) :
    ∀ (l : List Proxy.Service) (st : Proxy.ProxyState),
      mget st.circuitBreaker ename = some b →
      (∀ s ∈ (Proxy.selectAvailable now l st).1, s.name ≠ ename) ∧
      mget ((Proxy.selectAvailable now l st).2).circuitBreaker ename = some b := by
  intro l
  induction l with
  | nil => intro st h; exact ⟨by simp [Proxy.selectAvailable], h⟩
  | cons s rest ih =>
    intro st h
    by_cases hs : s.name = ename
    · -- the probed service has the blocked name: its breaker is `b`, not
      -- expired, so `isServiceAvailable` returns `(false, st)` and drops it
      have hbs : mget st.circuitBreaker s.name = some b := by rw [hs]; exact h
      have hav : Proxy.isServiceAvailable st s now = (false, st) := by
        unfold Proxy.isServiceAvailable
        rw [hbs]
        simp [hb]
      have := ih st h
      unfold Proxy.selectAvailable
      rw [hav]
      simpa using this
    · cases hbs : mget st.circuitBreaker s.name with
      | none =>
        have hav : Proxy.isServiceAvailable st s now = (true, st) := by
          unfold Proxy.isServiceAvailable; rw [hbs]
        have hrec := ih st h
        unfold Proxy.selectAvailable
        rw [hav]
        by_cases hrl : Proxy.checkRateLimit s
        · simp only [hrl, Bool.and_true]
          refine ⟨?_, hrec.2⟩
          intro x hx
          rcases List.mem_cons.mp (by simpa using hx) with h1 | h1
          · rw [h1]; exact hs
          · exact hrec.1 x h1
        · simpa [hrl] using hrec
      | some b' =>
        by_cases he : now - b'.openedAt > b'.timeout
        · -- expired breaker of a *different* name is lazily deleted
          have hav : Proxy.isServiceAvailable st s now =
              (true, { st with circuitBreaker := mdel st.circuitBreaker s.name }) := by
            unfold Proxy.isServiceAvailable; rw [hbs]; simp [he]
          have hpres :
              mget (mdel st.circuitBreaker s.name) ename = some b := by
            rw [mget_mdel_ne _ _ _ (fun hh => hs hh.symm)]; exact h
          have hrec := ih { st with circuitBreaker := mdel st.circuitBreaker s.name } hpres
          unfold Proxy.selectAvailable
          rw [hav]
          by_cases hrl : Proxy.checkRateLimit s
          · simp only [hrl, Bool.and_true]
            refine ⟨?_, hrec.2⟩
            intro x hx
            rcases List.mem_cons.mp (by simpa using hx) with h1 | h1
            · rw [h1]; exact hs
            · exact hrec.1 x h1
          · simpa [hrl] using hrec
        · have hav : Proxy.isServiceAvailable st s now = (false, st) := by
            unfold Proxy.isServiceAvailable; rw [hbs]; simp [he]
          have hrec := ih st h
          unfold Proxy.selectAvailable
          rw [hav]
          simpa using hrec

/-- Claim C1 counterexample.  Three consecutive `recordFailure` calls on a
fresh endpoint do **not** open the circuit (`recordFailure` compares the
pre-increment count against the threshold), and `selectBestProxy`
immediately returns that endpoint again, before any cooldown. -/
theorem claim_c1_counterexample :
    mget (Proxy.recordFailure (Proxy.recordFailure
        (Proxy.recordFailure pstA svA 0) svA 0) svA 0).circuitBreaker "A" = none ∧
    (Proxy.selectBestProxy (Proxy.recordFailure (Proxy.recordFailure
        (Proxy.recordFailure pstA svA 0) svA 0) svA 0) 0).1 = some svA := by
  decide

/-- Claim C1 as amended.  After **4** consecutive `recordFailure(E)` calls
(no intervening `recordSuccess`), the circuit for E is open (the entry is
`{isOpen := true, openedAt := t4, timeout := 300000}` where `t4` is the time
of the fourth call), and as long as the cooldown has not elapsed
(`now ≤ t4 + 300000`, the source reopens only when `now - openedAt`
strictly exceeds the cooldown) `selectBestProxy` never returns a service
with E's name. -/
theorem claim_c1_amended (st : Proxy.ProxyState) (E : Proxy.Service)
    (t1 t2 t3 t4 now : Nat) (hnow : now ≤ t4 + 300000) :
    mget (Proxy.recordFailure (Proxy.recordFailure (Proxy.recordFailure
        (Proxy.recordFailure st E t1) E t2) E t3) E t4).circuitBreaker E.name =
      some ⟨true, t4, 300000⟩ ∧
    ∀ s, (Proxy.selectBestProxy (Proxy.recordFailure (Proxy.recordFailure
        (Proxy.recordFailure (Proxy.recordFailure st E t1) E t2) E t3) E t4)
          now).1 = some s →
      s.name ≠ E.name := by
  set st3 := Proxy.recordFailure (Proxy.recordFailure
    (Proxy.recordFailure st E t1) E t2) E t3 with hst3
  have hcount : Proxy.getFailures st3 E.name = Proxy.getFailures st E.name + 3 := by
    rw [hst3]
    rw [getFailures_recordFailure, getFailures_recordFailure,
      getFailures_recordFailure]
  have hge : Proxy.getFailures st3 E.name ≥ 3 := by omega
  have hopen : mget (Proxy.recordFailure st3 E t4).circuitBreaker E.name =
      some ⟨true, t4, 300000⟩ := by
    unfold Proxy.recordFailure
    dsimp only
    rw [if_pos hge]
    show mget (mset _ E.name (⟨true, t4, 5 * 60 * 1000⟩ : Proxy.Breaker)) E.name = _
    rw [mget_mset_self]
  refine ⟨hopen, ?_⟩
  intro s hs
  have hnexp : ¬ now - (⟨true, t4, 300000⟩ : Proxy.Breaker).openedAt >
      (⟨true, t4, 300000⟩ : Proxy.Breaker).timeout := by
    simp only [not_lt]
    omega
  set st4 := Proxy.recordFailure st3 E t4 with hst4
  have hblocked := selectAvailable_blocked now E.name ⟨true, t4, 300000⟩ hnexp
    st4.services st4 hopen
  unfold Proxy.selectBestProxy at hs
  revert hs
  cases hav : (Proxy.selectAvailable now st4.services st4).1 with
  | nil =>
    intro hs
    simp only [hav] at hs
    simp at hs
  | cons a rest =>
    intro hs
    simp only [hav] at hs
    have hmem : Proxy.lruPick a rest ∈ a :: rest := lruPick_mem a rest
    have hsel : s = Proxy.lruPick a rest := by
      injection hs with h
      exact h.symm
    rw [hsel]
    exact hblocked.1 (Proxy.lruPick a rest) (by rw [hav]; exact hmem)

/-- Witness for C1 (amended): the concrete one-endpoint configuration,
four failures at time 0, queried at time 0. -/
theorem claim_c1_amended_witness :
    (0 : Nat) ≤ 0 + 300000 ∧
    mget (Proxy.recordFailure (Proxy.recordFailure (Proxy.recordFailure
        (Proxy.recordFailure pstA svA 0) svA 0) svA 0) svA 0).circuitBreaker
        "A" = some ⟨true, 0, 300000⟩ :=
  ⟨by decide,
    (claim_c1_amended pstA svA 0 0 0 0 0 (by decide)).1⟩

/-- Claim C3 counterexample.  One endpoint, one dispatched attempt that
fails: after `proxyGet` the attempt count is 1 but the endpoint's
`requestCount` is still 0 and `lastUsed` still 0 — failed attempts do not
update them, contradicting the claim. -/
theorem claim_c3_counterexample :
    (Proxy.proxyGet pstA oracleFail 5).2.2 = 1 ∧
    (Proxy.proxyGet pstA oracleFail 5).2.1.services =
      [⟨"A", 10000, 100, 0, 0⟩] := by
  decide

/-- Claim C3 as amended.  Dispatch attempts through `proxyGet` are
asymmetric: (1) in a run in which every dispatched request fails, the
endpoint array — hence every `lastUsed` and `requestCount` — is left
completely unchanged, however many attempts were dispatched; (2) a
successful attempt updates the chosen endpoint's `lastUsed` to the current
time and increments its `requestCount`; (3) each failed attempt does update
the circuit-breaker failure counter — in fact it increments it **twice**
(once in `makeProxyRequest`'s catch, once in `proxyGet`'s catch). -/
theorem claim_c3_amended (oracle : Nat → String → Proxy.RequestOutcome)
    (now : Nat) :
    (∀ fuel st issued le, (∀ k n, (oracle k n).isErr = true) →
      ((Proxy.proxyGetLoop oracle now fuel st issued le).2.1).services =
        st.services) ∧
    (∀ fuel st st1 s issued le r,
      Proxy.selectBestProxy st now = (some s, st1) →
      oracle issued s.name = Proxy.RequestOutcome.ok r →
      ((Proxy.proxyGetLoop oracle now (fuel + 1) st issued le).2.1).services =
        st1.services.map (fun x => if x.name = s.name then
          { x with lastUsed := now, requestCount := x.requestCount + 1 }
          else x)) ∧
    (∀ st s n,
      Proxy.getFailures (Proxy.recordFailure (Proxy.recordFailure st s n) s n)
          s.name =
        Proxy.getFailures st s.name + 2) := by
  refine ⟨?_, ?_, ?_⟩
  · intro fuel
    induction fuel with
    | zero => intro st issued le _; rfl
    | succ fuel ih =>
      intro st issued le hfail
      unfold Proxy.proxyGetLoop
      dsimp only
      cases hsel : (Proxy.selectBestProxy st now).1 with
      | none =>
        simp only [hsel]
        exact selectBestProxy_services st now
      | some s =>
        simp only [hsel]
        cases horc : oracle issued s.name with
        | ok r =>
          exfalso
          have := hfail issued s.name
          rw [horc] at this
          simp [Proxy.RequestOutcome.isErr] at this
        | err msg =>
          simp only [horc]
          rw [ih _ _ _ hfail]
          rw [recordFailure_services, recordFailure_services]
          exact selectBestProxy_services st now
  · intro fuel st st1 s issued le r hsel hok
    unfold Proxy.proxyGetLoop
    dsimp only
    rw [hsel]
    dsimp only
    rw [hok]
    dsimp only
    rw [recordSuccess_services]
    rfl
  · intro st s n
    rw [getFailures_recordFailure, getFailures_recordFailure]

/-- Witness for C3 (amended): the all-fail clause at the concrete
one-endpoint state and always-failing oracle. -/
theorem claim_c3_amended_witness :
    ((Proxy.proxyGetLoop oracleFail 5 1 pstA 0 none).2.1).services =
      pstA.services :=
  (claim_c3_amended oracleFail 5).1 1 pstA 0 none (fun _ _ => rfl)

/-- Behaviour of the `proxyGet` rotation loop: the request count grows by at
most `fuel`; a returned response is the response of the last issued request;
an `allFailed` result means the fuel was fully consumed, its message being
the failure message of the last issued request (given the invariant that
`lastErr`, when set, is the failure message of the previous request); and
the `undefined`-crash result only arises from a zero-fuel entry with no
recorded error. -/
theorem proxyGetLoop_spec (oracle : Nat → String → Proxy.RequestOutcome)
    (now : Nat) :
    ∀ (fuel : Nat) (st : Proxy.ProxyState) (issued : Nat) (le : Option String)
      (res : Proxy.ProxyResult) (st' : Proxy.ProxyState) (used : Nat),
      Proxy.proxyGetLoop oracle now fuel st issued le = (res, st', used) →
      (∀ m, le = some m →
        1 ≤ issued ∧ ∃ sn, oracle (issued - 1) sn = Proxy.RequestOutcome.err m) →
      issued ≤ used ∧ used ≤ issued + fuel ∧
      (∀ r, res = Proxy.ProxyResult.ok r →
        ∃ sn, oracle (used - 1) sn = Proxy.RequestOutcome.ok r) ∧
      (∀ m, res = Proxy.ProxyResult.allFailed m →
        used = issued + fuel ∧
          ∃ sn, oracle (used - 1) sn = Proxy.RequestOutcome.err m) ∧
      (res = Proxy.ProxyResult.jsUndefined → fuel = 0 ∧ le = none) := by
  intro fuel
  induction fuel with
  | zero =>
    intro st issued le res st' used hrun hle
    unfold Proxy.proxyGetLoop at hrun
    cases le with
    | none =>
      injection hrun with h1 hrest
      injection hrest with h2 h3
      subst h1; subst h3
      refine ⟨Nat.le_refl _, by omega, ?_, ?_, fun _ => ⟨rfl, rfl⟩⟩
      · intro r hr; cases hr
      · intro m hm; cases hm
    | some m0 =>
      injection hrun with h1 hrest
      injection hrest with h2 h3
      subst h3
      refine ⟨Nat.le_refl _, by omega, ?_, ?_, ?_⟩
      · intro r hr; rw [← h1] at hr; cases hr
      · intro m hm
        rw [← h1] at hm
        injection hm with hmm
        subst hmm
        exact ⟨by omega, (hle m0 rfl).2⟩
      · intro hj; rw [← h1] at hj; cases hj
  | succ fuel ih =>
    intro st issued le res st' used hrun hle
    unfold Proxy.proxyGetLoop at hrun
    dsimp only at hrun
    cases hsel : (Proxy.selectBestProxy st now).1 with
    | none =>
      simp only [hsel] at hrun
      injection hrun with h1 hrest
      injection hrest with h2 h3
      subst h3
      refine ⟨Nat.le_refl _, by omega, ?_, ?_, ?_⟩
      · intro r hr; rw [← h1] at hr; cases hr
      · intro m hm; rw [← h1] at hm; cases hm
      · intro hj; rw [← h1] at hj; cases hj
    | some s =>
      simp only [hsel] at hrun
      cases horc : oracle issued s.name with
      | ok r0 =>
        simp only [horc] at hrun
        injection hrun with h1 hrest
        injection hrest with h2 h3
        subst h3
        refine ⟨by omega, by omega, ?_, ?_, ?_⟩
        · intro r hr
          rw [← h1] at hr
          injection hr with hrr
          subst hrr
          exact ⟨s.name, by simpa using horc⟩
        · intro m hm; rw [← h1] at hm; cases hm
        · intro hj; rw [← h1] at hj; cases hj
      | err msg =>
        simp only [horc] at hrun
        have hle' : ∀ m, (some msg : Option String) = some m →
            1 ≤ issued + 1 ∧
              ∃ sn, oracle (issued + 1 - 1) sn = Proxy.RequestOutcome.err m := by
          intro m hm
          injection hm with hmm
          subst hmm
          exact ⟨by omega, ⟨s.name, by simpa using horc⟩⟩
        obtain ⟨ih1, ih2, ih3, ih4, ih5⟩ := ih _ _ _ _ _ _ hrun hle'
        refine ⟨by omega, by omega, ih3, ?_, ?_⟩
        · intro m hm
          obtain ⟨hu, hsn⟩ := ih4 m hm
          exact ⟨by omega, hsn⟩
        · intro hj
          obtain ⟨_, hcontra⟩ := ih5 hj
          cases hcontra

/-- Claim C7.  `proxyGet` issues at most `N = |endpoints|` requests; if the
very first `selectBestProxy` finds no available endpoint the result is the
no-endpoints-available error; a returned response is the response of the
last issued request; an `allFailed` result means exactly `N` requests were
issued and carries the failure message of the last one; and (for `N > 0`)
the loop never falls through with `lastError` undefined. -/
theorem claim_c7 (st : Proxy.ProxyState)
    (oracle : Nat → String → Proxy.RequestOutcome) (now : Nat)
    (hN : 0 < st.services.length) :
    (Proxy.proxyGet st oracle now).2.2 ≤ st.services.length ∧
    ((Proxy.selectBestProxy st now).1 = none →
      (Proxy.proxyGet st oracle now).1 = Proxy.ProxyResult.noService) ∧
    (∀ r, (Proxy.proxyGet st oracle now).1 = Proxy.ProxyResult.ok r →
      ∃ sn, oracle ((Proxy.proxyGet st oracle now).2.2 - 1) sn =
        Proxy.RequestOutcome.ok r) ∧
    (∀ m, (Proxy.proxyGet st oracle now).1 = Proxy.ProxyResult.allFailed m →
      (Proxy.proxyGet st oracle now).2.2 = st.services.length ∧
        ∃ sn, oracle ((Proxy.proxyGet st oracle now).2.2 - 1) sn =
          Proxy.RequestOutcome.err m) ∧
    (Proxy.proxyGet st oracle now).1 ≠ Proxy.ProxyResult.jsUndefined := by
  have hspec := proxyGetLoop_spec oracle now st.services.length st 0 none
    (Proxy.proxyGet st oracle now).1 (Proxy.proxyGet st oracle now).2.1
    (Proxy.proxyGet st oracle now).2.2 rfl (by intro m hm; cases hm)
  obtain ⟨h1, h2, h3, h4, h5⟩ := hspec
  refine ⟨by omega, ?_, h3, ?_, ?_⟩
  · intro hnone
    obtain ⟨n, hn⟩ : ∃ n, st.services.length = n + 1 :=
      ⟨st.services.length - 1, by omega⟩
    show (Proxy.proxyGetLoop oracle now st.services.length st 0 none).1 = _
    rw [hn]
    unfold Proxy.proxyGetLoop
    dsimp only
    simp only [hnone]
  · intro m hm
    obtain ⟨hu, hsn⟩ := h4 m hm
    exact ⟨by omega, hsn⟩
  · intro hj
    obtain ⟨h0, _⟩ := h5 hj
    omega

/-- Witness for C7 at a concrete input: the one-endpoint state with an
always-failing oracle. -/
theorem claim_c7_witness :
    0 < pstA.services.length ∧
    (Proxy.proxyGet pstA oracleFail 5).2.2 ≤ pstA.services.length :=
  ⟨by decide, (claim_c7 pstA oracleFail 5 (by decide)).1⟩

/-- Claim C5 failing trace.  With `maxConcurrentDownloads = 3`: submit four
tasks (three start, one queues); the first fails and schedules a retry
re-entry, and its `finally` block frees the slot to the queued task; when
the retry timer fires, `executeDownload` re-enters without any admission
check — `activeDownloads` reaches 4, violating the invariant
`activeDownloads ≤ maxConcurrentDownloads` the claim states. -/
theorem claim_c5_bug :
    (DM.runDM DM.dmInit
      [DM.Ev.submit "a" "u" "f", DM.Ev.submit "b" "u" "f",
       DM.Ev.submit "c" "u" "f", DM.Ev.submit "d" "u" "f",
       DM.Ev.settleErr "a" "boom", DM.Ev.timerFire "a"]).activeDownloads = 4 ∧
    ¬ (DM.runDM DM.dmInit
      [DM.Ev.submit "a" "u" "f", DM.Ev.submit "b" "u" "f",
       DM.Ev.submit "c" "u" "f", DM.Ev.submit "d" "u" "f",
       DM.Ev.settleErr "a" "boom", DM.Ev.timerFire "a"]).activeDownloads ≤
      DM.maxConcurrentDownloads := by
  decide

/-! ### DownloadManager helper lemmas -/

theorem mget_processQueue_ne (st : DM.DMState) (id : String)
    (hq : id ∉ st.downloadQueue) :
    mget (DM.processQueue st).downloads id = mget st.downloads id := by
  unfold DM.processQueue
  cases hqq : st.downloadQueue with
  | nil => rfl
  | cons h rest =>
    have hne : id ≠ h := by
      intro hh
      exact hq (by rw [hqq, hh]; exact List.mem_cons_self h rest)
    by_cases hlt : st.activeDownloads < DM.maxConcurrentDownloads
    · simp only [hlt, if_pos]
      unfold DM.startExec DM.updateDownloadStatus
      dsimp only
      rw [mget_updTask]
      rw [if_neg hne]
    · simp only [hlt, if_neg, not_false_iff]

/-- Claim C6 counterexample.  Submit a task (it starts downloading), cancel
it (status becomes `cancelled`), then the in-flight transfer resolves
successfully: `executeDownload`'s success path unconditionally overwrites
the status to `completed` — the result is **not** discarded and the task
does not stay `cancelled`. -/
theorem claim_c6_counterexample :
    (mget (DM.runDM DM.dmInit
        [DM.Ev.submit "a" "u" "f", DM.Ev.cancel "a",
         DM.Ev.settleOk "a"]).downloads "a").map DM.Task.status =
      some DM.Status.completed ∧
    DM.Status.completed ≠ DM.Status.cancelled := by
  decide

/-- Claim C6 as amended.  `cancelDownload` on a task whose status is
`downloading` does mark it `cancelled`, but the in-flight transfer's result
is not discarded: if the transfer later resolves successfully, the task's
status is overwritten to `completed` (and a rejection likewise drives the
normal retry/failure path). -/
theorem claim_c6_amended (st : DM.DMState) (id : String) (t : DM.Task)
    (hmem : mget st.downloads id = some t)
    (hst : t.status = DM.Status.downloading)
    (hrun : id ∈ st.running)
    (hq : id ∉ st.downloadQueue) :
    (∃ t1, mget (DM.exec st (DM.Ev.cancel id)).downloads id = some t1 ∧
      t1.status = DM.Status.cancelled) ∧
    (∃ t2, mget (DM.exec (DM.exec st (DM.Ev.cancel id))
        (DM.Ev.settleOk id)).downloads id = some t2 ∧
      t2.status = DM.Status.completed) := by
  have hcancel : DM.exec st (DM.Ev.cancel id) =
      { st with
          downloads := DM.updateDownloadStatus st.downloads id DM.Status.cancelled none,
          downloadQueue := st.downloadQueue.erase id } := by
    show (match mget st.downloads id with
      | none => st
      | some t =>
        if t.status = DM.Status.downloading ∨ t.status = DM.Status.queued then
          { st with
              downloads := DM.updateDownloadStatus st.downloads id DM.Status.cancelled none,
              downloadQueue := st.downloadQueue.erase id }
        else st) = _
    rw [hmem]
    dsimp only
    rw [if_pos (Or.inl hst)]
  have hmemC : mget (DM.exec st (DM.Ev.cancel id)).downloads id =
      some { t with status := DM.Status.cancelled } := by
    rw [hcancel]
    unfold DM.updateDownloadStatus
    dsimp only
    rw [mget_updTask]
    simp [hmem]
  refine ⟨⟨{ t with status := DM.Status.cancelled }, hmemC, rfl⟩, ?_⟩
  set stC := DM.exec st (DM.Ev.cancel id) with hstC
  have hrunC : id ∈ stC.running := by rw [hcancel]; exact hrun
  have hqC : id ∉ stC.downloadQueue := by
    rw [hcancel]
    dsimp only
    rw [List.erase_of_not_mem hq]
    exact hq
  have hsettle : DM.exec stC (DM.Ev.settleOk id) =
      DM.processQueue
        { stC with
            running := stC.running.erase id,
            downloads := DM.updateDownloadStatus stC.downloads id DM.Status.completed none,
            activeDownloads := stC.activeDownloads - 1 } := by
    show (if id ∈ stC.running then _ else stC) = _
    rw [if_pos hrunC]
  rw [hsettle]
  have hmain := mget_processQueue_ne
    { stC with
        running := stC.running.erase id,
        downloads := DM.updateDownloadStatus stC.downloads id DM.Status.completed none,
        activeDownloads := stC.activeDownloads - 1 } id hqC
  rw [hmain]
  dsimp only
  unfold DM.updateDownloadStatus
  dsimp only
  rw [mget_updTask]
  rw [if_pos rfl, hmemC]
  exact ⟨{ t with status := DM.Status.completed }, rfl, rfl⟩

/-- Witness for C6 (amended) at a concrete state: a single task currently
downloading and in flight. -/
theorem claim_c6_amended_witness :
    mget (⟨[("a", ⟨"a", "u", "f", DM.Status.downloading, 0, 0, none⟩)],
        1, [], ["a"], []⟩ : DM.DMState).downloads "a" =
      some ⟨"a", "u", "f", DM.Status.downloading, 0, 0, none⟩ ∧
    (∃ t1, mget (DM.exec (⟨[("a", ⟨"a", "u", "f", DM.Status.downloading, 0, 0, none⟩)],
        1, [], ["a"], []⟩ : DM.DMState) (DM.Ev.cancel "a")).downloads "a" = some t1 ∧
      t1.status = DM.Status.cancelled) :=
  ⟨by decide,
    (claim_c6_amended ⟨[("a", ⟨"a", "u", "f", DM.Status.downloading, 0, 0, none⟩)],
        1, [], ["a"], []⟩ "a" ⟨"a", "u", "f", DM.Status.downloading, 0, 0, none⟩
      (by decide) rfl (by decide) (by decide)).1⟩

/-- The identity fields of the task stored under `id` agree with `t`. -/
def FieldsAt (m : List (String × DM.Task)) (id : String) (t : DM.Task) : Prop :=
  ∃ t', mget m id = some t' ∧
    t'.id = t.id ∧ t'.url = t.url ∧ t'.filename = t.filename

theorem FieldsAt.updTask_pres {m : List (String × DM.Task)} {id : String}
    {t : DM.Task} (h : FieldsAt m id t) (k : String) (f : DM.Task → DM.Task)
    (hf : ∀ u, (f u).id = u.id ∧ (f u).url = u.url ∧ (f u).filename = u.filename) :
    FieldsAt (updTask m k f) id t := by
  obtain ⟨t', h1, h2, h3, h4⟩ := h
  rw [FieldsAt, mget_updTask]
  by_cases hk : id = k
  · rw [if_pos hk, h1]
    exact ⟨f t', rfl, (hf t').1.trans h2, (hf t').2.1.trans h3,
      (hf t').2.2.trans h4⟩
  · rw [if_neg hk]
    exact ⟨t', h1, h2, h3, h4⟩

theorem FieldsAt.updateStatus {m : List (String × DM.Task)} {id : String}
    {t : DM.Task} (h : FieldsAt m id t) (k : String) (s : DM.Status)
    (err : Option String) :
    FieldsAt (DM.updateDownloadStatus m k s err) id t := by
  unfold DM.updateDownloadStatus
  refine h.updTask_pres k _ ?_
  intro u
  cases err <;> exact ⟨rfl, rfl, rfl⟩

theorem FieldsAt.startExec {st : DM.DMState} {id : String} {t : DM.Task}
    (h : FieldsAt st.downloads id t) (k : String) :
    FieldsAt (DM.startExec st k).downloads id t :=
  h.updateStatus k DM.Status.downloading none


theorem FieldsAt.processQueue {st : DM.DMState} {id : String} {t : DM.Task}
    (h : FieldsAt st.downloads id t) :
    FieldsAt (DM.processQueue st).downloads id t := by
  unfold DM.processQueue
  cases hq : st.downloadQueue with
  | nil => exact h
  | cons q rest =>
    dsimp only
    by_cases hlt : st.activeDownloads < DM.maxConcurrentDownloads
    · rw [if_pos hlt]
      exact FieldsAt.startExec h q
    · rw [if_neg hlt]
      exact h

/-- Every scheduler event other than a submit reusing the same id preserves
the identity fields of a registered task. -/
theorem FieldsAt.exec_pres {st : DM.DMState} {id : String} {t : DM.Task}
    (h : FieldsAt st.downloads id t) (ev : DM.Ev)
    (hev : ∀ u f, ev ≠ DM.Ev.submit id u f) :
    FieldsAt (DM.exec st ev).downloads id t := by
  cases ev with
  | submit id' u f =>
    have hne : id ≠ id' := by
      intro hh
      exact hev u f (by rw [hh])
    obtain ⟨t', h1, h2, h3, h4⟩ := h
    have h1' : mget (mset st.downloads id'
        (⟨id', u, f, DM.Status.pending, 0, 0, none⟩ : DM.Task)) id = some t' := by
      rw [mget_mset_ne _ _ _ _ (fun hh => hne hh.symm)]
      exact h1
    have hbase : FieldsAt (mset st.downloads id'
        (⟨id', u, f, DM.Status.pending, 0, 0, none⟩ : DM.Task)) id t :=
      ⟨t', h1', h2, h3, h4⟩
    show FieldsAt (DM.exec st (DM.Ev.submit id' u f)).downloads id t
    unfold DM.exec
    dsimp only
    by_cases hlt : st.activeDownloads < DM.maxConcurrentDownloads
    · rw [if_pos hlt]
      exact FieldsAt.startExec hbase id'
    · rw [if_neg hlt]
      exact FieldsAt.updateStatus hbase id' DM.Status.queued none
  | settleOk id' =>
    show FieldsAt (DM.exec st (DM.Ev.settleOk id')).downloads id t
    unfold DM.exec
    dsimp only
    by_cases hr : id' ∈ st.running
    · rw [if_pos hr]
      exact FieldsAt.processQueue
        (FieldsAt.updateStatus h id' DM.Status.completed none)
    · rw [if_neg hr]; exact h
  | settleErr id' msg =>
    show FieldsAt (DM.exec st (DM.Ev.settleErr id' msg)).downloads id t
    unfold DM.exec
    dsimp only
    by_cases hr : id' ∈ st.running
    · rw [if_pos hr]
      cases hm : mget st.downloads id' with
      | none => exact h
      | some t0 =>
        dsimp only
        by_cases hrc : t0.retryCount < DM.retryBudget
        · rw [if_pos hrc]
          exact FieldsAt.processQueue
            (FieldsAt.updateStatus
              (FieldsAt.updTask_pres h id'
                (fun u => { u with retryCount := u.retryCount + 1 })
                (fun _ => ⟨rfl, rfl, rfl⟩))
              id' DM.Status.retrying none)
        · rw [if_neg hrc]
          exact FieldsAt.processQueue
            (FieldsAt.updateStatus h id' DM.Status.failed (some msg))
    · rw [if_neg hr]; exact h
  | timerFire id' =>
    show FieldsAt (DM.exec st (DM.Ev.timerFire id')).downloads id t
    unfold DM.exec
    dsimp only
    by_cases hr : id' ∈ st.timers
    · rw [if_pos hr]
      exact FieldsAt.startExec h id'
    · rw [if_neg hr]; exact h
  | cancel id' =>
    show FieldsAt (DM.exec st (DM.Ev.cancel id')).downloads id t
    unfold DM.exec
    dsimp only
    cases hm : mget st.downloads id' with
    | none => exact h
    | some t0 =>
      dsimp only
      by_cases hs : t0.status = DM.Status.downloading ∨ t0.status = DM.Status.queued
      · rw [if_pos hs]
        exact FieldsAt.updateStatus h id' DM.Status.cancelled none
      · rw [if_neg hs]; exact h
  | progressUpd id' p =>
    show FieldsAt (DM.exec st (DM.Ev.progressUpd id' p)).downloads id t
    unfold DM.exec
    dsimp only
    by_cases hr : id' ∈ st.running
    · rw [if_pos hr]
      exact FieldsAt.updTask_pres h id' (fun u => { u with progress := p })
        (fun _ => ⟨rfl, rfl, rfl⟩)
    · rw [if_neg hr]; exact h

theorem FieldsAt.runDM_pres {id : String} {t : DM.Task} :
    ∀ (evs : List DM.Ev) (st : DM.DMState),
      FieldsAt st.downloads id t →
      (∀ e ∈ evs, ∀ u f, e ≠ DM.Ev.submit id u f) →
      FieldsAt (DM.runDM st evs).downloads id t := by
  intro evs
  induction evs with
  | nil => intro st h _; exact h
  | cons e rest ih =>
    intro st h hev
    show FieldsAt (DM.runDM (DM.exec st e) rest).downloads id t
    exact ih (DM.exec st e)
      (h.exec_pres e (hev e (List.mem_cons_self e rest)))
      (fun e' he' => hev e' (List.mem_cons.mpr (Or.inr he')))

/-- Claim C10.  After submitting a download task, reading it back through
its id — in the `downloads` map, and through the `getDownloadProgress`
projection — always yields a task with the submitted `id`, `url` and
`filename`, no matter what later scheduler events (status changes, retries,
progress updates, cancellation, other submissions) occur, as long as no
later submission reuses the same id. -/
theorem claim_c10 (st : DM.DMState) (id url fn : String) (evs : List DM.Ev)
    (hfresh : ∀ e ∈ evs, ∀ u f, e ≠ DM.Ev.submit id u f) :
    ∃ t, mget (DM.runDM (DM.exec st (DM.Ev.submit id url fn)) evs).downloads
        id = some t ∧
      t.id = id ∧ t.url = url ∧ t.filename = fn ∧
      ∃ p, DM.getDownloadProgress
          (DM.runDM (DM.exec st (DM.Ev.submit id url fn)) evs) id = some p ∧
        p.id = id ∧ p.filename = fn := by
  have hbase : FieldsAt (DM.exec st (DM.Ev.submit id url fn)).downloads id
      (⟨id, url, fn, DM.Status.pending, 0, 0, none⟩ : DM.Task) := by
    show FieldsAt (DM.exec st (DM.Ev.submit id url fn)).downloads id _
    unfold DM.exec
    dsimp only
    have hmem : mget (mset st.downloads id
        (⟨id, url, fn, DM.Status.pending, 0, 0, none⟩ : DM.Task)) id =
        some ⟨id, url, fn, DM.Status.pending, 0, 0, none⟩ :=
      mget_mset_self _ _ _
    have hb : FieldsAt (mset st.downloads id
        (⟨id, url, fn, DM.Status.pending, 0, 0, none⟩ : DM.Task)) id
        (⟨id, url, fn, DM.Status.pending, 0, 0, none⟩ : DM.Task) :=
      ⟨_, hmem, rfl, rfl, rfl⟩
    by_cases hlt : st.activeDownloads < DM.maxConcurrentDownloads
    · rw [if_pos hlt]
      exact FieldsAt.startExec hb id
    · rw [if_neg hlt]
      exact FieldsAt.updateStatus hb id DM.Status.queued none
  have hrun := FieldsAt.runDM_pres evs _ hbase hfresh
  obtain ⟨t, h1, h2, h3, h4⟩ := hrun
  refine ⟨t, h1, h2, h3, h4, ?_⟩
  refine ⟨⟨t.id, t.filename, t.status, t.progress, t.retryCount, t.error⟩,
    ?_, h2, h4⟩
  unfold DM.getDownloadProgress
  rw [h1]
  rfl

/-- Witness for C10 at a concrete input: submit one task, let its transfer
settle, then read it back. -/
theorem claim_c10_witness :
    ∃ t, mget (DM.runDM (DM.exec DM.dmInit (DM.Ev.submit "a" "u" "f"))
        [DM.Ev.settleOk "a"]).downloads "a" = some t ∧
      t.id = "a" ∧ t.url = "u" ∧ t.filename = "f" ∧
      ∃ p, DM.getDownloadProgress (DM.runDM (DM.exec DM.dmInit
          (DM.Ev.submit "a" "u" "f")) [DM.Ev.settleOk "a"]) "a" = some p ∧
        p.id = "a" ∧ p.filename = "f" :=
  claim_c10 DM.dmInit "a" "u" "f" [DM.Ev.settleOk "a"]
    (fun e he u f => by
      rw [List.mem_singleton] at he
      subst he
      exact fun hcontra => DM.Ev.noConfusion hcontra)
